import Mathlib

set_option maxRecDepth 8192
set_option maxHeartbeats 1000000

/-!
Shallow embedding of the memos blob-storage and delivery layer.

The Go source is embedded as executable Lean definitions: the filesystem,
the S3 bucket and the metadata store appear as explicit state or as
environment records of functions, byte payloads are lists of naturals,
and fallible operations return `Except`.  Error values keep the wrapping
structure of `github.com/pkg/errors` (each `errors.Wrap` / `errors.Wrapf`
layer becomes a `wrapped` constructor; the human-readable message strings
are elided, the causes are kept).  Path handling models the Go `path`
and `path/filepath` packages on a Unix platform, where the separator is
the slash and `filepath.FromSlash` is the identity.
-/

namespace Memos

/-- Error universe for the embedding.  `errNotFound` is `types.ErrNotFound`,
`errNotExist` is `os.ErrNotExist`; the two are distinct sentinel values in Go.
`wrapped` is one `errors.Wrap`/`errors.Wrapf` layer (message elided, cause kept). -/
inductive PErr where
  | errNotFound
  | errNotExist
  | providerUnknown
  | clientInit
  | transport
  | httpBadURL
  | httpStatus (code : Nat)
  | statFail
  | decodeFail
  | mkdirFail
  | saveFail
  | capacity
  | tempFail
  | copyFail
  | closeFail
  | renameFail
  | settingErr
  | storageErr
deriving DecidableEq

/-- One wrapping layer of `github.com/pkg/errors`: the cause chain of an error. -/
inductive WErr where
  | base (e : PErr)
  | wrapped (cause : WErr)
deriving DecidableEq

/-- Model of `types.IsNotFound` / `errors.Is(err, types.ErrNotFound)`:
walk the cause chain looking for the `types.ErrNotFound` sentinel. -/
def isNotFoundErr : WErr → Bool
  | .base .errNotFound => true
  | .base _ => false
  | .wrapped e => isNotFoundErr e

/-- Shorthand for a singly wrapped base error, the most common shape. -/
def wrap1 (e : PErr) : WErr := .wrapped (.base e)

/-- Boolean character-list version of `strings.HasPrefix`. -/
def strStartsWithChars : List Char → List Char → Bool
  | _, [] => true
  | [], _ :: _ => false
  | a :: as, b :: bs => a == b && strStartsWithChars as bs

/-- Model of Go `strings.HasPrefix`. -/
def strStartsWith (s pre : String) : Bool :=
  strStartsWithChars s.toList pre.toList

/-- ASCII lower-casing of one character (the content types handled by the
source are ASCII, so the Unicode cases of `strings.ToLower` do not arise). -/
def charLowerAscii (c : Char) : Char :=
  if 65 ≤ c.toNat ∧ c.toNat ≤ 90 then Char.ofNat (c.toNat + 32) else c

/-- Model of Go `strings.ToLower` restricted to ASCII. -/
def toLowerStr (s : String) : String :=
  String.mk (s.toList.map charLowerAscii)

/-- Model of `util.HasPrefixes`: whether any of the given prefixes matches. -/
def hasPrefixes (s : String) (ps : List String) : Bool :=
  ps.any (fun p => strStartsWith s p)

/-- Character-list test used by `strings.Contains`. -/
def containsSubChars : List Char → List Char → Bool
  | [], pat => strStartsWithChars [] pat
  | c :: rest, pat => strStartsWithChars (c :: rest) pat || containsSubChars rest pat

/-- Model of Go `strings.Contains`. -/
def strContains (s pat : String) : Bool :=
  containsSubChars s.toList pat.toList

/-- Split a character list at every slash. -/
def splitSlashAux : List Char → List Char → List (List Char)
  | [], acc => [acc.reverse]
  | c :: rest, acc =>
    if c == '/' then acc.reverse :: splitSlashAux rest []
    else splitSlashAux rest (c :: acc)

/-- Split a path string into its slash-separated elements. -/
def splitSlash (s : String) : List String :=
  (splitSlashAux s.toList []).map String.mk

/-- Join strings with a slash between consecutive elements. -/
def joinSlash : List String → String
  | [] => ""
  | [p] => p
  | p :: rest => p ++ "/" ++ joinSlash rest

/-- Core loop of Go `path.Clean`: process the slash-separated elements,
dropping empty and dot elements, resolving a dot-dot against the
accumulated output where possible, keeping it for relative paths and
dropping it at the root of rooted paths.  `out` is the output stack
(reversed). -/
def cleanAcc (rooted : Bool) : List String → List String → List String
  | out, [] => out
  | out, e :: rest =>
    if e = "" ∨ e = "." then cleanAcc rooted out rest
    else if e = ".." then
      match out with
      | [] => if rooted then cleanAcc rooted [] rest else cleanAcc rooted [".."] rest
      | o :: os =>
        if o = ".." then cleanAcc rooted (".." :: o :: os) rest
        else cleanAcc rooted os rest
    else cleanAcc rooted (e :: out) rest

/-- Model of Go `path.Clean` (and of `filepath.Clean` on Unix). -/
def pathClean (s : String) : String :=
  if s = "" then "."
  else
    let rooted := strStartsWith s "/"
    let parts := (cleanAcc rooted [] (splitSlash s)).reverse
    let body := joinSlash parts
    if rooted then (if body = "" then "/" else "/" ++ body)
    else (if body = "" then "." else body)

/-- Model of Go `path.Dir` (and of `filepath.Dir` on Unix): everything up to
and including the final slash, cleaned; dot when there is no slash. -/
def pathDir (s : String) : String :=
  match s.toList.reverse.dropWhile (fun c => c ≠ '/') with
  | [] => "."
  | r => pathClean (String.mk r.reverse)

/-- Model of Go `path.Base` (and of `filepath.Base` on Unix). -/
def pathBase (s : String) : String :=
  if s = "" then "."
  else
    match s.toList.reverse.dropWhile (fun c => c == '/') with
    | [] => "/"
    | r => String.mk (r.takeWhile (fun c => c ≠ '/')).reverse

/-- Model of Go `filepath.IsAbs` on Unix. -/
def goIsAbs (s : String) : Bool := strStartsWith s "/"

/-- Model of Go `filepath.Join` (and `path.Join`): drop leading empty
elements, join the rest with slashes and clean the result. -/
def goJoin (elems : List String) : String :=
  match elems.dropWhile (fun e => e = "") with
  | [] => ""
  | es => pathClean (joinSlash es)

/-- Model of Go `filepath.Abs` on Unix with an explicit working directory:
clean an absolute path, otherwise join it under the working directory. -/
def goAbs (cwd p : String) : String :=
  if goIsAbs p then pathClean p else goJoin [cwd, p]

/-- Model of Go `filepath.FromSlash`, which is the identity on Unix. -/
def fromSlash (s : String) : String := s

/-- Model of Go `filepath.Ext`: the suffix of the final path element that
starts at its last dot, empty when the final element has no dot. -/
def goExt (p : String) : String :=
  let r := p.toList.reverse.takeWhile (fun c => c ≠ '/')
  let upToDot := r.takeWhile (fun c => c ≠ '.')
  if upToDot.length = r.length then ""
  else String.mk ('.' :: upToDot.reverse)

/-- The wall-clock moment observed by one `time.Now()` call, with the
components the path template can render. -/
structure GoTime where
  unix : Int
  year : Int
  month : Int
  day : Int
  hour : Int
  minute : Int
  second : Int
deriving DecidableEq

/-- Rendering used for the two-digit placeholders (`%02d` on the values the
source feeds it: small non-negative calendar components). -/
def pad2 (n : Int) : String :=
  if 0 ≤ n ∧ n < 10 then "0" ++ toString n else toString n

/-- Lowercase ASCII letter test, the character class of the placeholder
pattern. -/
def isLowerAlpha (c : Char) : Bool := 'a' ≤ c && c ≤ 'z'

/-- The switch of `replacePathTemplate` for every placeholder other than
the fresh-token one: the rendered value, or none for an unrecognized word
(whose match is then emitted unchanged). -/
def placeholderValue (filename : String) (t : GoTime) (w : String) : Option String :=
  if w = "filename" then some filename
  else if w = "timestamp" then some (toString t.unix)
  else if w = "year" then some (toString t.year)
  else if w = "month" then some (pad2 t.month)
  else if w = "day" then some (pad2 t.day)
  else if w = "hour" then some (pad2 t.hour)
  else if w = "minute" then some (pad2 t.minute)
  else if w = "second" then some (pad2 t.second)
  else none

/-- Scanner of `replacePathTemplate`: the leftmost, non-overlapping matches
of a brace followed by one to nine lowercase letters and a closing brace
are replaced through the switch; the fresh-token placeholder consumes the
next element of the token supply `us` (one fresh draw per occurrence, as
each match calls `util.GenUUID` anew).  The second argument holds the
letters read so far (reversed) after an opening brace, or none when not
inside a candidate match. -/
def rpAux (filename : String) (t : GoTime) : List Char → Option (List Char) → List String → List Char
  | [], none, _ => []
  | [], some buf, _ => '{' :: buf.reverse
  | c :: rest, none, us =>
    if c == '{' then rpAux filename t rest (some []) us
    else c :: rpAux filename t rest none us
  | c :: rest, some buf, us =>
    if c == '}' then
      if 1 ≤ buf.length then
        let w := String.mk buf.reverse
        if w = "uuid" then (us.headD "").toList ++ rpAux filename t rest none us.tail
        else
          match placeholderValue filename t w with
          | some v => v.toList ++ rpAux filename t rest none us
          | none => '{' :: (buf.reverse ++ '}' :: rpAux filename t rest none us)
      else '{' :: '}' :: rpAux filename t rest none us
    else if isLowerAlpha c && buf.length < 9 then
      rpAux filename t rest (some (c :: buf)) us
    else if c == '{' then
      '{' :: (buf.reverse ++ rpAux filename t rest (some []) us)
    else
      '{' :: (buf.reverse ++ c :: rpAux filename t rest none us)

/-- Model of `replacePathTemplate`: substitute the recognized placeholders
of `path`, evaluated at the wall-clock moment `t`, drawing fresh tokens
from `us`. -/
def replacePathTemplate (t : GoTime) (us : List String) (path filename : String) : String :=
  String.mk (rpAux filename t path.toList none us)

/-- Configuration of the local filesystem provider (`local.Config`). -/
structure LocalConfig where
  rootDir : String
  pattern : String
  rawKey : Bool
deriving DecidableEq

/-- Model of `Local.formatFile`: choose the configured pattern or the
default one, append the filename placeholder when the pattern lacks it,
and run the template substitution. -/
def formatFile (cfg : LocalConfig) (t : GoTime) (us : List String) (filename : String) : String :=
  let localStoragePath := if cfg.pattern ≠ "" then cfg.pattern else "assets/{timestamp}_{filename}"
  let internalPath :=
    if strContains localStoragePath "{filename}" then localStoragePath
    else goJoin [localStoragePath, "{filename}"]
  replacePathTemplate t us internalPath filename

/-- The local filesystem as a map from absolute path to byte content. -/
abbrev Fs := String → Option (List Nat)

/-- The empty filesystem. -/
def emptyFs : Fs := fun _ => none

/-- Write one file (the observable effect of the temp-file-then-rename
sequence of `Local.Upload` when every step succeeds). -/
def fsWrite (fs : Fs) (p : String) (b : List Nat) : Fs :=
  fun q => if q = p then some b else fs q

/-- Failure injection for the disk steps of `Local.Upload` (directory
creation, temp-file creation, copy, close and rename).  When a step fails
the function returns its wrapped error and the filesystem is unchanged
(the deferred removal discards the temp file). -/
structure DiskEnv where
  mkdirOk : Bool
  tempOk : Bool
  copyOk : Bool
  closeOk : Bool
  renameOk : Bool
deriving DecidableEq

/-- The all-steps-succeed disk environment. -/
def okDisk : DiskEnv := ⟨true, true, true, true, true⟩

/-- Model of `Local.getPath`: clean the key, split it into directory and
base name, format the base name through the template and join everything
back under the root, made absolute against the working directory `cwd`
(the `filepath.Abs` error cannot occur in this model). -/
def localGetPath (cfg : LocalConfig) (t : GoTime) (us : List String) (cwd key : String) : String :=
  let res := pathClean (fromSlash key)
  let dir := pathDir res
  let base := pathBase res
  goAbs cwd (goJoin [cfg.rootDir, dir, formatFile cfg t us base])

/-- Model of `Local.Upload` at the moment `t` with fresh-token supply `us`:
derive the target path, then run the atomic-write sequence; any failing
step leaves the filesystem unchanged, success writes the payload at the
derived path. -/
def localUpload (cfg : LocalConfig) (d : DiskEnv) (t : GoTime) (us : List String)
    (cwd : String) (fs : Fs) (key : String) (payload : List Nat) : Except WErr Fs :=
  let p := localGetPath cfg t us cwd key
  if ¬ d.mkdirOk then .error (wrap1 .mkdirFail)
  else if ¬ d.tempOk then .error (wrap1 .tempFail)
  else if ¬ d.copyOk then .error (wrap1 .copyFail)
  else if ¬ d.closeOk then .error (wrap1 .closeFail)
  else if ¬ d.renameOk then .error (wrap1 .renameFail)
  else .ok (fsWrite fs p payload)

/-- Model of `Local.Download`.  In raw-key mode the source rewrites the
local variable `key` but never assigns `resourcePath`, which keeps its
zero value, so the open always targets the empty path; the model mirrors
that faithfully.  In non-raw mode the key goes through `getPath`, so the
template is evaluated again at the download moment.  A missing file is
`os.ErrNotExist`, which the source rewrites to `types.ErrNotFound` and
wraps. -/
def localDownload (cfg : LocalConfig) (t : GoTime) (us : List String)
    (cwd : String) (fs : Fs) (key : String) : Except WErr (List Nat) :=
  let resourcePath := if cfg.rawKey then "" else localGetPath cfg t us cwd key
  match fs resourcePath with
  | some b => .ok b
  | none => .error (wrap1 .errNotFound)

/-- Upload-then-download against one filesystem, starting from the empty
filesystem: the composition the round-trip law speaks about, with the
write moment `tU`/`usU` and the read moment `tD`/`usD` explicit. -/
def localRoundTrip (cfg : LocalConfig) (tU : GoTime) (usU : List String)
    (tD : GoTime) (usD : List String) (cwd key : String) (payload : List Nat) :
    Except WErr (List Nat) :=
  match localUpload cfg okDisk tU usU cwd emptyFs key payload with
  | .error e => .error e
  | .ok fs1 => localDownload cfg tD usD cwd fs1 key

/-- Decidable equality of `Except` results, for evaluating concrete runs. -/
instance {ε α : Type} [DecidableEq ε] [DecidableEq α] : DecidableEq (Except ε α) := fun a b =>
  match a, b with
  | .ok x, .ok y => if h : x = y then .isTrue (by rw [h]) else .isFalse (by intro hc; cases hc; exact h rfl)
  | .error x, .error y => if h : x = y then .isTrue (by rw [h]) else .isFalse (by intro hc; cases hc; exact h rfl)
  | .ok _, .error _ => .isFalse (by intro hc; cases hc)
  | .error _, .ok _ => .isFalse (by intro hc; cases hc)

/-- Environment of the S3 provider: whether the lazy client construction
succeeds, and whether the object-store calls fail at the transport level. -/
structure S3Env where
  clientOk : Bool
  transportFail : Bool
deriving DecidableEq

/-- The remote bucket as a map from key to object bytes. -/
abbrev Bucket := String → Option (List Nat)

/-- The AWS-level error of one object-store call: the typed missing-key
error, or any other service or transport failure. -/
inductive S3ApiErr where
  | noSuchKey
  | genericApi
deriving DecidableEq

/-- One `GetObject` call against the bucket. -/
def s3GetObject (env : S3Env) (bucket : Bucket) (key : String) : Except S3ApiErr (List Nat) :=
  if env.transportFail then .error .genericApi
  else
    match bucket key with
    | some b => .ok b
    | none => .error .noSuchKey

/-- Model of `isMissedKey`: whether the error is the typed missing-key error. -/
def isMissedKey : Option S3ApiErr → Bool
  | some .noSuchKey => true
  | _ => false

/-- Model of `S3.Upload`: get the lazy client, then run the streamed upload;
success stores the payload under the key. -/
def s3Upload (env : S3Env) (bucket : Bucket) (key : String) (payload : List Nat) : Except WErr Bucket :=
  if ¬ env.clientOk then .error (wrap1 .clientInit)
  else if env.transportFail then .error (wrap1 .transport)
  else .ok (fun q => if q = key then some payload else bucket q)

/-- Model of `S3.Download`.  The source first rewrites a missing-key error
to `types.ErrNotFound`, but the subsequent wrap passes `types.ErrNotFound`
itself for every error, so the rewritten value is never consulted:
`errors.Wrapf(types.ErrNotFound, "get key %q", key)` runs on each error
path, and the model mirrors that. -/
def s3Download (env : S3Env) (bucket : Bucket) (key : String) : Except WErr (List Nat) :=
  if ¬ env.clientOk then .error (wrap1 .clientInit)
  else
    match s3GetObject env bucket key with
    | .ok body => .ok body
    | .error e =>
      let _rewritten := isMissedKey (some e)
      .error (wrap1 .errNotFound)

/-- The persisted resource record (`store.Resource`).  The Go byte slice
`Blob` distinguishes nil from non-nil, hence the option; the two legacy
location fields use the empty string as their absent value, as the source
tests them against it. -/
structure Resource where
  id : Int
  resourceName : String
  storageID : Option Int
  creatorID : Int
  createdTs : Int
  updatedTs : Int
  filename : String
  blob : Option (List Nat)
  internalPath : String
  externalLink : String
  type : String
  size : Int
  memoID : Option Int
deriving DecidableEq

/-- A storage backend configuration row (`store.Storage`): display name,
provider type tag and opaque JSON configuration.  The field `type` of the
Go struct is the registry tag. -/
structure GoStorage where
  id : Int
  name : String
  type : String
  config : String
deriving DecidableEq

/-- Outcome of the legacy external-link HTTP fetch: request construction
failure, transport failure, or a response with status and body. -/
inductive HttpOutcome where
  | badURL
  | netErr
  | resp (status : Nat) (body : List Nat)
deriving DecidableEq

/-- A resolved content stream: its bytes and whether the underlying Go
value implements `io.ReadSeeker`.  An opened file does; the wrapper that
`io.NopCloser` puts around an in-memory reader does not, and neither do
the remote-object and HTTP response bodies. -/
structure ByteStream where
  bytes : List Nat
  seekable : Bool
deriving DecidableEq

/-- Environment of the metadata store: the backend-configuration lookup,
the set of registered provider type tags, the download action of a
constructed provider, the data root (`Profile.Data`), the local
file-open action, and the HTTP client. -/
structure StoreEnv where
  getStorage : Int → Except WErr GoStorage
  registry : List String
  download : String → String → String → Except WErr ByteStream
  dataDir : String
  openFile : String → Except WErr (List Nat)
  http : String → HttpOutcome

/-- Model of `resources.CreateProvider`: the factory lookup by tag, failing
with the wrapped unknown-provider sentinel for an unregistered tag.  (The
JSON decoding of the opaque configuration inside the factory is not
modelled separately; the constructed provider is represented by the
environment download action.) -/
def createProviderOk (registry : List String) (tag : String) : Except WErr Unit :=
  if tag ∈ registry then .ok () else .error (wrap1 .providerUnknown)

/-- Model of `resources.Content`: create the provider by tag and download
the key; a creation failure gains one more wrapping layer. -/
def resourcesContent (env : StoreEnv) (tag config key : String) : Except WErr ByteStream :=
  match createProviderOk env.registry tag with
  | .error e => .error (.wrapped e)
  | .ok _ => env.download tag config key

/-- Resolution of a legacy local path: slash conversion, then joined under
the data root when not absolute. -/
def resolveDataPath (dataDir p : String) : String :=
  let q := fromSlash p
  if goIsAbs q then q else goJoin [dataDir, q]

/-- Model of `openLink`: build and execute the GET request, then require a
2xx status; the body is returned only in that case, and the status error
is a fresh error without a wrapped cause. -/
def openLink (env : StoreEnv) (url : String) : Except WErr ByteStream :=
  match env.http url with
  | .badURL => .error (wrap1 .httpBadURL)
  | .netErr => .error (wrap1 .transport)
  | .resp s b => if s / 100 ≠ 2 then .error (.base (.httpStatus s)) else .ok ⟨b, false⟩

/-- Model of `Store.GetResourceContent`: provider reference first, then the
embedded blob wrapped in an in-memory reader (not seekable through the
`io.NopCloser` wrapper), then the legacy local path opened as a file
(seekable), then the legacy external link; otherwise `os.ErrNotExist`. -/
def getResourceContent (env : StoreEnv) (r : Resource) : Except WErr ByteStream :=
  match r.storageID with
  | some sid =>
    match env.getStorage sid with
    | .error e => .error (.wrapped e)
    | .ok storage => resourcesContent env storage.type storage.config r.externalLink
  | none =>
    match r.blob with
    | some b => .ok ⟨b, false⟩
    | none =>
      if r.internalPath ≠ "" then
        match env.openFile (resolveDataPath env.dataDir r.internalPath) with
        | .ok b => .ok ⟨b, true⟩
        | .error e => .error e
      else if r.externalLink ≠ "" then openLink env r.externalLink
      else .error (.base .errNotExist)

/-- Model of `pkg/errors.Wrap` on an optional error: wrapping nil yields
nil, wrapping an error adds one layer.  This is the documented behavior
the not-found branch of `Store.DeleteResource` relies on. -/
def errorsWrapO : Option WErr → Option WErr
  | none => none
  | some e => some (.wrapped e)

/-- Turn the Go convention of a nil-able returned error into `Except`. -/
def exceptOfErrOpt : Option WErr → Except WErr Unit
  | none => .ok ()
  | some e => .error e

/-- Observable side effects of one `Store.DeleteResource` call: the paths
handed to `os.Remove` and whether the driver-level row delete ran. -/
structure DelEffects where
  removedPaths : List String
  driverDeleteCalled : Bool
deriving DecidableEq

/-- Environment of `Store.DeleteResource` for one given identifier: the
metadata lookup result, the data root and the driver delete outcome. -/
structure DelEnv where
  getResource : Except WErr (Option Resource)
  dataDir : String
  driverDelete : Except WErr Unit

/-- Model of `Store.DeleteResource`: look the resource up; a lookup error
is wrapped; an absent resource takes the branch that returns
`errors.Wrap(nil, "resource not found")`, which is nil; otherwise remove
the legacy local file (if any) and the deterministic thumbnail path (for
the two raster image types), then run the driver delete. -/
def storeDeleteResource (env : DelEnv) : Except WErr Unit × DelEffects :=
  match env.getResource with
  | .error e => (.error (.wrapped e), ⟨[], false⟩)
  | .ok none => (exceptOfErrOpt (errorsWrapO none), ⟨[], false⟩)
  | .ok (some r) =>
    let removedLocal := if r.internalPath ≠ "" then [resolveDataPath env.dataDir r.internalPath] else []
    let removedThumb :=
      if hasPrefixes r.type ["image/png", "image/jpeg"] then
        [goJoin [env.dataDir, ".thumbnail_cache", toString r.id ++ goExt r.filename]]
      else []
    (env.driverDelete, ⟨removedLocal ++ removedThumb, true⟩)

/-- The visibility levels of a memo (`store.Public`, `store.Protected`,
`store.Private`). -/
inductive Visibility where
  | publicV
  | protectedV
  | privateV
deriving DecidableEq

/-- The fields of a memo the delivery path reads. -/
structure Memo where
  visibility : Visibility
deriving DecidableEq

/-- Outcome of the visibility check at the head of
`streamResourceContent`. -/
inductive Gate where
  | pass
  | unauthorized
  | ierror
deriving DecidableEq

/-- Model of the memo-visibility check of `streamResourceContent`: with no
parent reference the check is skipped; a failing memo lookup is an
internal error; a nil memo (no row, no error) also skips the check; a
found non-public memo requires a caller identity in the context, and a
private one additionally requires the caller to equal the resource
creator. -/
def visibilityGate (getMemo : Int → Except WErr (Option Memo)) (memoID : Option Int)
    (creatorID : Int) (caller : Option Int) : Gate :=
  match memoID with
  | none => .pass
  | some mid =>
    match getMemo mid with
    | .error _ => .ierror
    | .ok none => .pass
    | .ok (some m) =>
      if m.visibility ≠ .publicV then
        match caller with
        | none => .unauthorized
        | some uid => if m.visibility = .privateV ∧ uid ≠ creatorID then .unauthorized else .pass
      else .pass

/-- HTTP-level failure classes of the delivery endpoint. -/
inductive HErr where
  | unauthorized
  | internal
deriving DecidableEq

/-- The explicit content-type override used for text content
(`echo.MIMETextPlainCharsetUTF8`). -/
def mimeTextPlainUTF8 : String := "text/plain; charset=UTF-8"

/-- The fixed content-security-policy header value of the endpoint. -/
def cspHeader : String :=
  "default-src \u0027none\u0027; script-src \u0027none\u0027; img-src \u0027self\u0027; media-src \u0027self\u0027; sandbox;"

/-- How the body is written: `ranged` is the `http.ServeContent` branch
taken for a seekable stream, which derives its own content type from the
file name or the content and never sees the computed `resourceType`
string; `sequential` is the `c.Stream` branch, which sends exactly the
given content type. -/
inductive ServedBody where
  | ranged (filename : String) (modtime : Int) (bytes : List Nat)
  | sequential (contentType : String) (bytes : List Nat)
deriving DecidableEq

/-- A successful delivery: the response headers the handler sets, and the
body mode. -/
structure Served where
  cacheControl : String
  csp : String
  disposition : String
  body : ServedBody
deriving DecidableEq

/-- Whether a delivery carried the explicit UTF-8 plain-text content-type
override: only the sequential branch transmits the computed type, so a
ranged response never does. -/
def usesTextOverride : ServedBody → Bool
  | .sequential ct _ => ct = mimeTextPlainUTF8
  | .ranged _ _ _ => false

/-- Environment of the delivery endpoint: the store environment, the memo
lookup, and the thumbnail routine abstracted as a function from the source
bytes and the cache path to the thumbnail bytes. -/
structure ServeEnv where
  store : StoreEnv
  getMemo : Int → Except WErr (Option Memo)
  thumb : List Nat → String → Except WErr (List Nat)

/-- Model of `ResourceService.streamResourceContent`: run the visibility
gate, resolve the content stream, optionally substitute the thumbnail for
the two raster image types (falling back to a freshly resolved original
stream on any thumbnail failure), then set the fixed headers and choose
the body mode: seekable streams go to range-aware serving, the rest are
streamed sequentially with the computed content type, where a declared
type with the text prefix is overridden by the UTF-8 plain-text type. -/
def streamResourceContent (env : ServeEnv) (r : Resource) (caller : Option Int)
    (thumbnailQ : Bool) : Except HErr Served :=
  match visibilityGate env.getMemo r.memoID r.creatorID caller with
  | .ierror => .error .internal
  | .unauthorized => .error .unauthorized
  | .pass =>
    match getResourceContent env.store r with
    | .error _ => .error .internal
    | .ok stream0 =>
      let afterThumb : Except HErr ByteStream :=
        if thumbnailQ && hasPrefixes r.type ["image/png", "image/jpeg"] then
          let ext := goExt r.filename
          let thumbnailPath := goJoin [env.store.dataDir, ".thumbnail_cache", toString r.id ++ ext]
          match env.thumb stream0.bytes thumbnailPath with
          | .ok tb => .ok ⟨tb, true⟩
          | .error _ =>
            match getResourceContent env.store r with
            | .error _ => .error .internal
            | .ok s2 => .ok s2
        else .ok stream0
      match afterThumb with
      | .error e => .error e
      | .ok stream =>
        let resourceType := toLowerStr r.type
        let resourceType := if strStartsWith resourceType "text" then mimeTextPlainUTF8 else resourceType
        .ok { cacheControl := "max-age=3600"
              csp := cspHeader
              disposition := "filename=\"" ++ r.filename ++ "\""
              body :=
                if stream.seekable then .ranged r.filename r.updatedTs stream.bytes
                else .sequential resourceType stream.bytes }

/-- State seen by the thumbnail generator: the cache directory content and
the generation-budget counter (`availableGeneratorAmount`, default 32). -/
structure ThumbState where
  files : Fs
  budget : Int

/-- Environment of one thumbnail call: a transient stat failure, the
decode, directory-creation and encode-save outcomes, and the pure resize
of the decoded source bytes. -/
structure ThumbEnv where
  statOtherErr : Bool
  decodeOk : Bool
  mkdirOk : Bool
  saveOk : Bool
  resized : List Nat → List Nat

/-- Outcome of the `os.Stat` probe on the cache path: none when the file
exists, false for the does-not-exist error, true for any other error. -/
def goStatErr (env : ThumbEnv) (st : ThumbState) (p : String) : Option Bool :=
  if env.statOtherErr then some true
  else if (st.files p).isSome then none
  else some false

/-- The final `os.Open` of the cache path. -/
def openCacheFile (st : ThumbState) (p : String) : Except WErr (List Nat) :=
  match st.files p with
  | some b => .ok b
  | none => .error (.base .errNotExist)

/-- The deferred `atomic.AddInt32(&availableGeneratorAmount, 1)` that runs
on every exit path after the decrement. -/
def thumbRestore (st : ThumbState) : ThumbState :=
  { st with budget := st.budget + 1 }

/-- Model of `getOrGenerateThumbnailImage`.  A cache hit opens the file
without touching the budget.  A cache miss first checks the budget: a
non-positive counter fails immediately with the capacity error and no
decrement; otherwise the counter is decremented, the decode, directory
creation and save run in order (any failure surfacing as a wrapped
error), and the deferred increment restores the counter on every exit
path before the final open of the cache path. -/
def getOrGenerateThumbnailImage (env : ThumbEnv) (source : List Nat) (dstPath : String)
    (st : ThumbState) : Except WErr (List Nat) × ThumbState :=
  match goStatErr env st dstPath with
  | some true => (.error (wrap1 .statFail), st)
  | none => (openCacheFile st dstPath, st)
  | some false =>
    if st.budget ≤ 0 then (.error (.base .capacity), st)
    else
      let st1 : ThumbState := { st with budget := st.budget - 1 }
      if ¬ env.decodeOk then (.error (wrap1 .decodeFail), thumbRestore st1)
      else if ¬ env.mkdirOk then (.error (wrap1 .mkdirFail), thumbRestore st1)
      else if ¬ env.saveOk then (.error (wrap1 .saveFail), thumbRestore st1)
      else
        let st2 : ThumbState := { st1 with files := fsWrite st1.files dstPath (env.resized source) }
        (openCacheFile st2 dstPath, thumbRestore st2)

/-- The storage-service identifier of the embedded database backend.
Modelled from the spec: the constant is declared outside the given
sources; the spec fixes only that it denotes the embedded store and that
the unset setting defaults to it. -/
def DatabaseStorage : Int := 0

/-- The default active backend when the workspace setting is absent.
Modelled from the spec: defaults to the embedded-store backend. -/
def DefaultStorage : Int := DatabaseStorage

/-- Model of `generateResourceID`: render the fresh token as hexadecimal
(the rendered string is taken as input here) and join the 2/2/2/rest
split as path segments. -/
def generateResourceID (uuidHex : String) : String :=
  let cs := uuidHex.toList
  goJoin [String.mk (cs.take 2), String.mk ((cs.drop 2).take 2),
          String.mk ((cs.drop 4).take 2), String.mk (cs.drop 6)]

/-- Environment of `SaveResourceBlob`: the workspace-setting lookup
composed with the JSON decode of the active backend identifier (absent
setting keeps the default), the backend-configuration lookup, the
registered provider tags, the provider upload outcome, and the rendered
fresh token for the generated key. -/
structure SaveEnv where
  settingResult : Except WErr (Option (Except WErr Int))
  getStorage : Int → Except WErr GoStorage
  registry : List String
  upload : GoStorage → String → List Nat → Except WErr Unit
  uuidHex : String

/-- Model of `SaveResourceBlob`.  The embedded backend reads the whole
payload into the blob field.  Any other backend resolves the provider
through the registry — the source passes the display name
`storage.Name` to `resources.CreateProvider`, not the type tag
`storage.Type`, and the model keeps that — then records the backend
reference, generates the fanned-out key, uploads, and on success records
the key as the external link. -/
def saveResourceBlob (env : SaveEnv) (create : Resource) (payload : List Nat) :
    Except WErr Resource :=
  match env.settingResult with
  | .error e => .error (.wrapped e)
  | .ok settingOpt =>
    let sidResult : Except WErr Int :=
      match settingOpt with
      | none => .ok DefaultStorage
      | some parse =>
        match parse with
        | .error e => .error (.wrapped e)
        | .ok v => .ok v
    match sidResult with
    | .error e => .error e
    | .ok sid =>
      if sid = DatabaseStorage then .ok { create with blob := some payload }
      else
        match env.getStorage sid with
        | .error e => .error (.wrapped e)
        | .ok storage =>
          match createProviderOk env.registry storage.name with
          | .error e => .error (.wrapped e)
          | .ok _ =>
            let create1 := { create with storageID := some sid }
            let resourceKey := generateResourceID env.uuidHex
            match env.upload storage resourceKey payload with
            | .error e => .error (.wrapped e)
            | .ok _ => .ok { create1 with externalLink := resourceKey }

/-- Whether a derived path stays under the given root directory. -/
def liesUnder (root p : String) : Bool :=
  p = root || strStartsWith p (root ++ "/")

/-- A concrete write moment. -/
def tW : GoTime := ⟨100, 2023, 11, 14, 22, 13, 20⟩

/-- A concrete read moment one second later. -/
def tW2 : GoTime := ⟨101, 2023, 11, 14, 22, 13, 21⟩

/-- A local provider on root `/data` with the default pattern, non-raw. -/
def cfgDefaultW : LocalConfig := ⟨"/data", "", false⟩

/-- An S3 environment whose client constructs and whose transport works. -/
def s3EnvOkW : S3Env := ⟨true, false⟩

/-- An S3 environment whose client constructs but whose object calls fail
at the transport level. -/
def s3EnvFailW : S3Env := ⟨true, true⟩

/-- The empty bucket. -/
def emptyBucket : Bucket := fun _ => none

/-- A bucket holding one object under the key `k`. -/
def bucketKW : Bucket := fun q => if q = "k" then some [1, 2, 3] else none

/-- A concrete store environment: both provider tags registered, one local
file present, every remote lookup failing. -/
def storeEnvW : StoreEnv :=
  { getStorage := fun _ => .error (.base .storageErr)
    registry := ["local", "S3"]
    download := fun _ _ _ => .error (.base .transport)
    dataDir := "/data"
    openFile := fun p => if p = "/files/a.html" then .ok [104, 105] else .error (.base .errNotExist)
    http := fun _ => .netErr }

/-- A resource record with every payload location empty. -/
def rBase : Resource :=
  ⟨1, "n", none, 7, 0, 0, "f.bin", none, "", "", "application/octet-stream", 0, none⟩

/-- A resource with an embedded blob. -/
def rEmbedW : Resource := { rBase with blob := some [7, 8] }

/-- A text resource resolved through a legacy local path, hence served
from an opened (seekable) file. -/
def rSeekTextW : Resource :=
  { rBase with filename := "a.html", internalPath := "/files/a.html", type := "text/html" }

/-- A text resource resolved from the embedded blob, hence served from a
non-seekable in-memory stream. -/
def rBlobTextW : Resource :=
  { rBase with filename := "n.md", blob := some [5], type := "text/markdown" }

/-- A delivery environment over `storeEnvW`: memo 1 is private, every
other memo identifier has no row, and the thumbnail routine always fails. -/
def serveEnvW : ServeEnv :=
  { store := storeEnvW
    getMemo := fun mid => if mid = 1 then .ok (some ⟨.privateV⟩) else .ok none
    thumb := fun _ _ => .error (.base .capacity) }

/-- A thumbnail environment where every step succeeds and the resize is
the identity. -/
def thumbEnvW : ThumbEnv := ⟨false, true, true, true, fun b => b⟩

/-- A thumbnail state with one cached file and budget three. -/
def thumbStW : ThumbState :=
  ⟨fun p => if p = "/data/.thumbnail_cache/1.png" then some [9] else none, 3⟩

/-- A thumbnail state with an empty cache and an exhausted budget. -/
def thumbStZeroW : ThumbState := ⟨fun _ => none, 0⟩

/-- The backend-configuration row used by the save example: display name
`Local`, type tag `local`. -/
def storageRowW : GoStorage := ⟨5, "Local", "local", "\x7b\x7d"⟩

/-- A save environment whose active backend is configuration 5, with both
provider tags registered and a provider upload that succeeds. -/
def saveEnvW : SaveEnv :=
  { settingResult := .ok (some (.ok 5))
    getStorage := fun sid => if sid = 5 then .ok storageRowW else .error (.base .storageErr)
    registry := ["local", "S3"]
    upload := fun _ _ _ => .ok ()
    uuidHex := "0123456789abcdef0123456789abcdef" }

/-- A delete environment whose metadata lookup finds no row. -/
def delEnvW : DelEnv := ⟨.ok none, "/data", .ok ()⟩

/-- C1 (amended): the upload-then-download round trip returns exactly the
uploaded bytes for the S3 provider whenever the upload succeeded, and for
the local provider in non-raw mode whenever the path-template evaluation
at the download moment equals the one at the upload moment (same clock
placeholder values and same fresh-token draws); the source evaluates the
formatter on both the write and the read path, so this equality is the
exact condition under which the stored file is found again. -/
theorem local_s3_roundtrip_amended :
    (∀ (cfg : LocalConfig) (d : DiskEnv) (tU : GoTime) (usU : List String) (tD : GoTime)
        (usD : List String) (cwd : String) (fs : Fs) (key : String) (payload : List Nat) (fs1 : Fs),
        cfg.rawKey = false →
        localGetPath cfg tD usD cwd key = localGetPath cfg tU usU cwd key →
        localUpload cfg d tU usU cwd fs key payload = .ok fs1 →
        localDownload cfg tD usD cwd fs1 key = .ok payload) ∧
    (∀ (env : S3Env) (bucket : Bucket) (key : String) (payload : List Nat) (bucket1 : Bucket),
        s3Upload env bucket key payload = .ok bucket1 →
        s3Download env bucket1 key = .ok payload) := by
  constructor
  · intro cfg d tU usU tD usD cwd fs key payload fs1 hraw hpath hup
    by_cases h1 : d.mkdirOk
    · by_cases h2 : d.tempOk
      · by_cases h3 : d.copyOk
        · by_cases h4 : d.closeOk
          · by_cases h5 : d.renameOk
            · simp [localUpload, h1, h2, h3, h4, h5] at hup
              subst hup
              simp [localDownload, hraw, hpath, fsWrite]
            · simp [localUpload, h1, h2, h3, h4, h5] at hup
          · simp [localUpload, h1, h2, h3, h4] at hup
        · simp [localUpload, h1, h2, h3] at hup
      · simp [localUpload, h1, h2] at hup
    · simp [localUpload, h1] at hup
  · intro env bucket key payload bucket1 hup
    by_cases hc : env.clientOk
    · by_cases ht : env.transportFail
      · simp [s3Upload, hc, ht] at hup
      · simp [s3Upload, hc, ht] at hup
        subst hup
        simp [s3Download, s3GetObject, hc, ht]
    · simp [s3Upload, hc] at hup

/-- C1 witness: a concrete same-moment local round trip and a concrete S3
round trip both return the uploaded bytes. -/
theorem local_s3_roundtrip_witness :
    localDownload cfgDefaultW tW [] "/cwd"
        (fsWrite emptyFs (localGetPath cfgDefaultW tW [] "/cwd" "k") [1, 2, 3]) "k" = .ok [1, 2, 3] ∧
    s3Download s3EnvOkW (fun q => if q = "k" then some [4] else emptyBucket q) "k" = .ok [4] := by
  constructor
  · exact local_s3_roundtrip_amended.1 cfgDefaultW okDisk tW [] tW [] "/cwd" emptyFs "k" [1, 2, 3]
      (fsWrite emptyFs (localGetPath cfgDefaultW tW [] "/cwd" "k") [1, 2, 3]) rfl rfl rfl
  · exact local_s3_roundtrip_amended.2 s3EnvOkW emptyBucket "k" [4]
      (fun q => if q = "k" then some [4] else emptyBucket q) rfl

/-- C1 counterexample: with the default time-stamped template, uploading
the key `k` at second 100 and downloading it at second 101 derives two
different paths, so the round trip as claimed fails with the wrapped
not-found error instead of returning the bytes. -/
theorem local_roundtrip_counterexample :
    localRoundTrip cfgDefaultW tW [] tW2 [] "/cwd" "k" [1, 2, 3] = .error (wrap1 .errNotFound) ∧
    localRoundTrip cfgDefaultW tW [] tW2 [] "/cwd" "k" [1, 2, 3] ≠ .ok [1, 2, 3] := by
  exact ⟨by decide, by decide⟩

/-- C2: when the parent memo is found, the visibility check of the
delivery path serves a public memo's resource to every caller including
the anonymous one, rejects every anonymous request for a non-public memo
as unauthorized, and for a private memo additionally rejects every
identified caller other than the resource creator, while the creator
passes; an identified caller always passes for the middle (protected)
visibility. -/
theorem memo_visibility_gate_spec
    (getMemo : Int → Except WErr (Option Memo)) (mid : Int) (m : Memo)
    (creatorID : Int) (caller : Option Int)
    (h : getMemo mid = .ok (some m)) :
    (m.visibility = .publicV → visibilityGate getMemo (some mid) creatorID caller = .pass) ∧
    (m.visibility ≠ .publicV → caller = none →
        visibilityGate getMemo (some mid) creatorID caller = .unauthorized) ∧
    (∀ uid, caller = some uid → m.visibility = .privateV →
        (uid = creatorID → visibilityGate getMemo (some mid) creatorID caller = .pass) ∧
        (uid ≠ creatorID → visibilityGate getMemo (some mid) creatorID caller = .unauthorized)) ∧
    (∀ uid, caller = some uid → m.visibility = .protectedV →
        visibilityGate getMemo (some mid) creatorID caller = .pass) := by
  refine ⟨?_, ?_, ?_, ?_⟩
  · intro hv
    simp [visibilityGate, h, hv]
  · intro hv hc
    subst hc
    simp [visibilityGate, h, hv]
  · intro uid hc hv
    subst hc
    constructor
    · intro he
      simp [visibilityGate, h, hv, he]
    · intro hne
      simp [visibilityGate, h, hv, hne]
  · intro uid hc hv
    subst hc
    simp [visibilityGate, h, hv]

/-- C2 witness: against the concrete environment where memo 1 is private
and resource creator 7, the creator passes, the stranger 9 and the
anonymous caller are unauthorized. -/
theorem memo_visibility_gate_witness :
    visibilityGate serveEnvW.getMemo (some 1) 7 (some 7) = .pass ∧
    visibilityGate serveEnvW.getMemo (some 1) 7 (some 9) = .unauthorized ∧
    visibilityGate serveEnvW.getMemo (some 1) 7 none = .unauthorized := by
  refine ⟨?_, ?_, ?_⟩
  · exact ((memo_visibility_gate_spec serveEnvW.getMemo 1 ⟨.privateV⟩ 7 (some 7) rfl).2.2.1
      7 rfl rfl).1 rfl
  · exact ((memo_visibility_gate_spec serveEnvW.getMemo 1 ⟨.privateV⟩ 7 (some 9) rfl).2.2.1
      9 rfl rfl).2 (by decide)
  · exact (memo_visibility_gate_spec serveEnvW.getMemo 1 ⟨.privateV⟩ 7 none rfl).2.1
      (by decide) rfl

/-- C3: `GetResourceContent` resolves the payload with exactly the claimed
precedence: a set provider reference looks the backend configuration up
and downloads by the stored key through the registry; otherwise a present
embedded blob becomes an in-memory stream; otherwise a non-empty legacy
local path is opened (joined under the data root when relative); otherwise
a non-empty legacy external link is fetched over HTTP with the body
returned exactly for 2xx statuses; and with all four locations absent the
result is the not-found condition. -/
theorem getResourceContent_precedence (env : StoreEnv) (r : Resource) :
    (∀ sid st, r.storageID = some sid → env.getStorage sid = .ok st →
        getResourceContent env r = resourcesContent env st.type st.config r.externalLink) ∧
    (∀ tag config key, tag ∈ env.registry →
        resourcesContent env tag config key = env.download tag config key) ∧
    (∀ b, r.storageID = none → r.blob = some b →
        getResourceContent env r = .ok ⟨b, false⟩) ∧
    (r.storageID = none → r.blob = none → r.internalPath ≠ "" →
        getResourceContent env r =
          match env.openFile (resolveDataPath env.dataDir r.internalPath) with
          | .ok b => .ok ⟨b, true⟩
          | .error e => .error e) ∧
    (r.storageID = none → r.blob = none → r.internalPath = "" → r.externalLink ≠ "" →
        getResourceContent env r = openLink env r.externalLink) ∧
    (∀ url s b, env.http url = .resp s b →
        openLink env url = if s / 100 = 2 then .ok ⟨b, false⟩ else .error (.base (.httpStatus s))) ∧
    (r.storageID = none → r.blob = none → r.internalPath = "" → r.externalLink = "" →
        getResourceContent env r = .error (.base .errNotExist)) := by
  refine ⟨?_, ?_, ?_, ?_, ?_, ?_, ?_⟩
  · intro sid st hsid hst
    simp [getResourceContent, hsid, hst]
  · intro tag config key hmem
    simp [resourcesContent, createProviderOk, hmem]
  · intro b hsid hb
    simp [getResourceContent, hsid, hb]
  · intro hsid hb hip
    simp [getResourceContent, hsid, hb, hip]
  · intro hsid hb hip hel
    simp [getResourceContent, hsid, hb, hip, hel]
  · intro url s b hresp
    by_cases h2 : s / 100 = 2
    · simp [openLink, hresp, h2]
    · simp [openLink, hresp, h2]
  · intro hsid hb hip hel
    simp [getResourceContent, hsid, hb, hip, hel]

/-- C3 witness: against the concrete store environment, a blob-only
resource resolves to its embedded bytes and a resource with every
location empty resolves to the not-found condition. -/
theorem getResourceContent_precedence_witness :
    getResourceContent storeEnvW rEmbedW = .ok ⟨[7, 8], false⟩ ∧
    getResourceContent storeEnvW rBase = .error (.base .errNotExist) := by
  constructor
  · exact (getResourceContent_precedence storeEnvW rEmbedW).2.2.1 [7, 8] rfl rfl
  · exact (getResourceContent_precedence storeEnvW rBase).2.2.2.2.2.2 rfl rfl rfl rfl

/-- C4 (code bug witnessed): for the local provider in non-raw mode on
root directory `/data`, the key `../escape` derives the path
`/assets/100_escape`, which lies outside the root: `path.Clean` does not
remove leading parent-directory elements, so the cleaning step does not
block traversal as the source comment and the claim state. -/
theorem local_getPath_escapes_root :
    localGetPath cfgDefaultW tW [] "/cwd" "../escape" = "/assets/100_escape" ∧
    liesUnder "/data" (localGetPath cfgDefaultW tW [] "/cwd" "../escape") = false := by
  exact ⟨by decide, by decide⟩

/-- C5 (code bug witnessed): with the key present in the bucket and the
object call failing at the transport level, `S3.Download` reports the
wrapped `types.ErrNotFound`, because the source wraps that sentinel on
every error path; a backend failure is therefore not distinguishable from
the not-found condition. -/
theorem s3_download_transport_as_notfound :
    s3EnvFailW.transportFail = true ∧
    bucketKW "k" = some [1, 2, 3] ∧
    s3Download s3EnvFailW bucketKW "k" = .error (wrap1 .errNotFound) ∧
    isNotFoundErr (wrap1 .errNotFound) = true := by
  exact ⟨rfl, rfl, by decide, rfl⟩

/-- C6: when the cache file exists (and the stat probe does not fail
transiently) the thumbnail call returns the cached bytes with the state —
hence also the budget counter — untouched, for every counter value; when
the file is absent and the counter is not positive the call fails
immediately with the capacity error and an unchanged state; and on every
call whatsoever the counter value in the returned state equals the value
before the call, because the deferred increment matches the decrement on
every exit path. -/
theorem thumbnail_budget_spec :
    (∀ (env : ThumbEnv) (src : List Nat) (p : String) (st : ThumbState) (b : List Nat),
        env.statOtherErr = false → st.files p = some b →
        getOrGenerateThumbnailImage env src p st = (.ok b, st)) ∧
    (∀ (env : ThumbEnv) (src : List Nat) (p : String) (st : ThumbState),
        env.statOtherErr = false → st.files p = none → st.budget ≤ 0 →
        getOrGenerateThumbnailImage env src p st = (.error (.base .capacity), st)) ∧
    (∀ (env : ThumbEnv) (src : List Nat) (p : String) (st : ThumbState),
        ((getOrGenerateThumbnailImage env src p st).2).budget = st.budget) := by
  refine ⟨?_, ?_, ?_⟩
  · intro env src p st b hs hf
    simp [getOrGenerateThumbnailImage, goStatErr, hs, hf, openCacheFile]
  · intro env src p st hs hf hb
    simp [getOrGenerateThumbnailImage, goStatErr, hs, hf, hb]
  · intro env src p st
    rcases hg : goStatErr env st p with _ | b
    · simp [getOrGenerateThumbnailImage, hg]
    · cases b
      · by_cases hb : st.budget ≤ 0
        · simp [getOrGenerateThumbnailImage, hg, hb]
        · by_cases hd : env.decodeOk <;> by_cases hm : env.mkdirOk <;> by_cases hs2 : env.saveOk <;>
            simp [getOrGenerateThumbnailImage, hg, hb, hd, hm, hs2, thumbRestore]
      · simp [getOrGenerateThumbnailImage, hg]

/-- C6 witness: a concrete cache hit returns the cached bytes with the
state untouched, a concrete exhausted-budget miss fails with the capacity
error without touching the state, and a concrete generating call leaves
the budget unchanged. -/
theorem thumbnail_budget_witness :
    getOrGenerateThumbnailImage thumbEnvW [1] "/data/.thumbnail_cache/1.png" thumbStW = (.ok [9], thumbStW) ∧
    getOrGenerateThumbnailImage thumbEnvW [1] "/q" thumbStZeroW = (.error (.base .capacity), thumbStZeroW) ∧
    ((getOrGenerateThumbnailImage thumbEnvW [1] "/q" thumbStW).2).budget = thumbStW.budget := by
  refine ⟨?_, ?_, ?_⟩
  · exact thumbnail_budget_spec.1 thumbEnvW [1] "/data/.thumbnail_cache/1.png" thumbStW [9] rfl (by decide)
  · exact thumbnail_budget_spec.2.1 thumbEnvW [1] "/q" thumbStZeroW rfl rfl (by decide)
  · exact thumbnail_budget_spec.2.2 thumbEnvW [1] "/q" thumbStW

/-- C7 (code bug witnessed): with backend configuration 5 carrying the
registered type tag `local` but the display name `Local`,
`SaveResourceBlob` fails with the doubly wrapped unknown-provider error,
because the source resolves the provider with `storage.Name` while the
read path (`GetResourceContent`) resolves it with `storage.Type`; the
same configuration resolves fine at read time. -/
theorem saveResourceBlob_provider_by_name_fails :
    saveEnvW.getStorage 5 = .ok storageRowW ∧
    storageRowW.type ∈ saveEnvW.registry ∧
    storageRowW.name ∉ saveEnvW.registry ∧
    saveResourceBlob saveEnvW rBase [1] = .error (.wrapped (wrap1 .providerUnknown)) ∧
    createProviderOk saveEnvW.registry storageRowW.type = .ok () := by
  exact ⟨by decide, by decide, by decide, by decide, by decide⟩

/-- C8 counterexample: a resource with declared type `text/html` resolved
through a legacy local path yields a seekable stream; the handler then
delegates to range-aware serving, which never receives the computed
content-type string, so the delivery does not carry the explicit UTF-8
plain-text override although the declared type has the text prefix. -/
theorem text_override_seekable_counterexample :
    strStartsWith (toLowerStr rSeekTextW.type) "text" = true ∧
    streamResourceContent serveEnvW rSeekTextW none false =
      .ok ⟨"max-age=3600", cspHeader, "filename=\"a.html\"", .ranged "a.html" 0 [104, 105]⟩ ∧
    usesTextOverride (ServedBody.ranged "a.html" 0 [104, 105]) = false := by
  exact ⟨by decide, by decide, rfl⟩

/-- C8 (amended): a delivered resource whose declared content type has the
text prefix is served with the explicit UTF-8 plain-text content-type
override exactly on the sequential path, taken when the resolved stream is
not seekable; a seekable stream is delegated to range-aware serving,
which determines the content type itself from the file name or content
and does not receive the override. -/
theorem text_override_sequential_only (env : ServeEnv) (r : Resource) (caller : Option Int)
    (bs : List Nat) :
    (visibilityGate env.getMemo r.memoID r.creatorID caller = .pass →
        strStartsWith (toLowerStr r.type) "text" = true →
        getResourceContent env.store r = .ok ⟨bs, false⟩ →
        streamResourceContent env r caller false =
          .ok ⟨"max-age=3600", cspHeader, "filename=\"" ++ r.filename ++ "\"",
               .sequential mimeTextPlainUTF8 bs⟩) ∧
    (visibilityGate env.getMemo r.memoID r.creatorID caller = .pass →
        getResourceContent env.store r = .ok ⟨bs, true⟩ →
        streamResourceContent env r caller false =
          .ok ⟨"max-age=3600", cspHeader, "filename=\"" ++ r.filename ++ "\"",
               .ranged r.filename r.updatedTs bs⟩) := by
  constructor
  · intro hg ht hc
    simp [streamResourceContent, hg, hc, ht]
  · intro hg hc
    simp [streamResourceContent, hg, hc]

/-- C8 witness: a concrete text resource resolved from the embedded blob
(non-seekable) is served sequentially with the UTF-8 plain-text override. -/
theorem text_override_sequential_only_witness :
    streamResourceContent serveEnvW rBlobTextW none false =
      .ok ⟨"max-age=3600", cspHeader, "filename=\"n.md\"", .sequential mimeTextPlainUTF8 [5]⟩ := by
  exact (text_override_sequential_only serveEnvW rBlobTextW none [5]).1 rfl (by decide) rfl

/-- C9: when the resource carries a parent-memo reference but the memo
lookup returns no row and no error, the visibility gate passes for every
caller including the anonymous one, and the whole delivery behaves
exactly as if the resource had no parent reference at all. -/
theorem orphaned_memo_serves_public (env : ServeEnv) (r : Resource) (mid : Int)
    (caller : Option Int) (tq : Bool)
    (hm : r.memoID = some mid) (hl : env.getMemo mid = .ok none) :
    visibilityGate env.getMemo r.memoID r.creatorID caller = .pass ∧
    streamResourceContent env r caller tq =
      streamResourceContent env { r with memoID := none } caller tq := by
  have hg : visibilityGate env.getMemo r.memoID r.creatorID caller = .pass := by
    simp [visibilityGate, hm, hl]
  refine ⟨hg, ?_⟩
  have hg2 : visibilityGate env.getMemo (none : Option Int) r.creatorID caller = .pass := rfl
  simp only [streamResourceContent, hg, hg2]
  rfl

/-- C9 witness: a concrete embedded resource linked to the absent memo 2
passes the gate anonymously and is delivered exactly as without the link. -/
theorem orphaned_memo_serves_public_witness :
    visibilityGate serveEnvW.getMemo (some 2) 7 none = .pass ∧
    streamResourceContent serveEnvW { rEmbedW with memoID := some 2 } none false =
      streamResourceContent serveEnvW { { rEmbedW with memoID := some 2 } with memoID := none } none false := by
  exact orphaned_memo_serves_public serveEnvW { rEmbedW with memoID := some 2 } 2 none false rfl rfl

/-- C10: when the metadata lookup finds no resource for the identifier,
`Store.DeleteResource` returns no error — the not-found branch wraps a nil
cause, and `errors.Wrap` of nil is nil — and performs no file removal, no
thumbnail removal and no driver delete. -/
theorem deleteResource_missing_silent_success (env : DelEnv)
    (h : env.getResource = .ok none) :
    storeDeleteResource env = (.ok (), ⟨[], false⟩) := by
  simp [storeDeleteResource, h, errorsWrapO, exceptOfErrOpt]

/-- C10 witness: the concrete delete environment with an absent row
returns success and no effects. -/
theorem deleteResource_missing_silent_success_witness :
    storeDeleteResource delEnvW = (.ok (), ⟨[], false⟩) :=
  deleteResource_missing_silent_success delEnvW rfl

end Memos
